import Mathlib

set_option maxHeartbeats 1000000

/- Verification development for the fj CLI (src/main.rs): the credential
   lifecycle (AuthConfig save/load over TOML), the OAuth device-flow polling
   loop, the check-run fetch path, and the git subprocess probe. -/

/-- The stored credential record, mirroring struct AuthConfig in src/main.rs
(fields access_token, token_type, scope; serialized to TOML by
toml::to_string and read back by toml::from_str). -/
structure AuthConfig where
  access_token : String
  token_type : String
  scope : List String
  deriving DecidableEq

/-- Hex digit character used in TOML backslash-u escapes (uppercase digits,
as emitted by the toml serializer for control characters). -/
def hexDigitChar (n : Nat) : Char :=
  if n < 10 then Char.ofNat (48 + n) else Char.ofNat (55 + n)

/-- Numeric value of a hex digit character of a TOML backslash-u escape. -/
def hexVal (c : Char) : Option Nat :=
  if 48 ≤ c.toNat ∧ c.toNat ≤ 57 then some (c.toNat - 48)
  else if 65 ≤ c.toNat ∧ c.toNat ≤ 70 then some (c.toNat - 55)
  else if 97 ≤ c.toNat ∧ c.toNat ≤ 102 then some (c.toNat - 87)
  else none

/-- TOML basic-string escaping of one character, as performed by
toml::to_string on the String fields of AuthConfig: quote and backslash are
escaped, the named control escapes are used for backspace, tab, newline,
form feed and carriage return, remaining control characters (and DEL) use
a four-digit backslash-u escape, and every other character is emitted
verbatim. -/
def escapeChar (c : Char) : List Char :=
  if c = '"' then ['\\', '"']
  else if c = '\\' then ['\\', '\\']
  else if c = Char.ofNat 8 then ['\\', 'b']
  else if c = Char.ofNat 9 then ['\\', 't']
  else if c = Char.ofNat 10 then ['\\', 'n']
  else if c = Char.ofNat 12 then ['\\', 'f']
  else if c = Char.ofNat 13 then ['\\', 'r']
  else if c.toNat < 32 ∨ c.toNat = 127 then
    ['\\', 'u', hexDigitChar (c.toNat / 4096 % 16), hexDigitChar (c.toNat / 256 % 16),
      hexDigitChar (c.toNat / 16 % 16), hexDigitChar (c.toNat % 16)]
  else [c]

/-- TOML basic-string escaping of a whole character sequence. -/
def escape : List Char → List Char
  | [] => []
  | c :: cs => escapeChar c ++ escape cs

/-- Parser for the body of a TOML basic string, up to and including the
closing double quote; models the string decoding done by toml::from_str in
AuthConfig::load. Returns the decoded characters and the remaining input. -/
def parseStr : List Char → Option (List Char × List Char)
  | [] => none
  | c :: rest =>
    if c = '"' then some ([], rest)
    else if c = '\\' then
      match rest with
      | [] => none
      | e :: rest2 =>
        if e = '"' then (parseStr rest2).map (fun p => ('"' :: p.1, p.2))
        else if e = '\\' then (parseStr rest2).map (fun p => ('\\' :: p.1, p.2))
        else if e = 'b' then (parseStr rest2).map (fun p => (Char.ofNat 8 :: p.1, p.2))
        else if e = 't' then (parseStr rest2).map (fun p => (Char.ofNat 9 :: p.1, p.2))
        else if e = 'n' then (parseStr rest2).map (fun p => (Char.ofNat 10 :: p.1, p.2))
        else if e = 'f' then (parseStr rest2).map (fun p => (Char.ofNat 12 :: p.1, p.2))
        else if e = 'r' then (parseStr rest2).map (fun p => (Char.ofNat 13 :: p.1, p.2))
        else if e = 'u' then
          match rest2 with
          | h1 :: h2 :: h3 :: h4 :: rest3 =>
            match hexVal h1, hexVal h2, hexVal h3, hexVal h4 with
            | some a, some b, some c2, some d =>
              (parseStr rest3).map
                (fun p => (Char.ofNat (4096 * a + 256 * b + 16 * c2 + d) :: p.1, p.2))
            | _, _, _, _ => none
          | _ => none
        else none
    else (parseStr rest).map (fun p => (c :: p.1, p.2))

theorem hexVal_hexDigitChar : ∀ n, n < 16 → hexVal (hexDigitChar n) = some n := by decide

theorem parseStr_escape (s : List Char) :
    ∀ rest, parseStr (escape s ++ '"' :: rest) = some (s, rest) := by
  induction s with
  | nil => intro rest; rw [parseStr.eq_def]; simp [escape]
  | cons c cs ih =>
    intro rest
    rw [escape, escapeChar]
    split_ifs with h1 h2 h3 h4 h5 h6 h7 h8
    · subst h1; rw [List.cons_append, List.cons_append, parseStr.eq_def]; simp [ih]
    · subst h2; rw [List.cons_append, List.cons_append, parseStr.eq_def]; simp [ih]
    · subst h3; rw [List.cons_append, List.cons_append, parseStr.eq_def]; simp [ih]
    · subst h4; rw [List.cons_append, List.cons_append, parseStr.eq_def]; simp [ih]
    · subst h5; rw [List.cons_append, List.cons_append, parseStr.eq_def]; simp [ih]
    · subst h6; rw [List.cons_append, List.cons_append, parseStr.eq_def]; simp [ih]
    · subst h7; rw [List.cons_append, List.cons_append, parseStr.eq_def]; simp [ih]
    · have e1 := hexVal_hexDigitChar (c.toNat / 4096 % 16) (Nat.mod_lt _ (by omega))
      have e2 := hexVal_hexDigitChar (c.toNat / 256 % 16) (Nat.mod_lt _ (by omega))
      have e3 := hexVal_hexDigitChar (c.toNat / 16 % 16) (Nat.mod_lt _ (by omega))
      have e4 := hexVal_hexDigitChar (c.toNat % 16) (Nat.mod_lt _ (by omega))
      have hsum : 4096 * (c.toNat / 4096 % 16) + 256 * (c.toNat / 256 % 16) +
          16 * (c.toNat / 16 % 16) + c.toNat % 16 = c.toNat := by omega
      rw [List.cons_append, List.cons_append, List.cons_append, List.cons_append,
        List.cons_append, List.cons_append, parseStr.eq_def]
      simp [e1, e2, e3, e4, hsum, ih]
    · rw [List.cons_append, parseStr.eq_def]
      simp [h1, h2, ih]

/-- Literal opening of the first line of the serialized credential file. -/
def litAccess : List Char := "access_token = \"".data

/-- Literal separating the first and second lines of the credential file. -/
def litTokenType : List Char := "\ntoken_type = \"".data

/-- Literal separating the second and third lines of the credential file. -/
def litScope : List Char := "\nscope = [".data

/-- Trailing newline of the credential file. -/
def litEnd : List Char := "\n".data

/-- One quoted element of the TOML scope array. -/
def emitItem (s : List Char) : List Char := '"' :: (escape s ++ ['"'])

/-- Elements of the TOML scope array after the first, each preceded by a
comma-space separator, as the toml serializer prints arrays. -/
def emitScopeTail : List (List Char) → List Char
  | [] => []
  | s :: ss => ',' :: ' ' :: (emitItem s ++ emitScopeTail ss)

/-- Body of the TOML scope array (between the square brackets). -/
def emitScope : List (List Char) → List Char
  | [] => []
  | s :: ss => emitItem s ++ emitScopeTail ss

/-- Character-level serialization of the credential record: the TOML document
toml::to_string produces for AuthConfig, with the three fields in struct
order and a trailing newline. -/
def emitDocChars (tok tt : List Char) (ss : List (List Char)) : List Char :=
  litAccess ++ (escape tok ++ '"' ::
    (litTokenType ++ (escape tt ++ '"' ::
      (litScope ++ (emitScope ss ++ ']' :: litEnd)))))

/-- Serialized TOML text written for an AuthConfig by the Login success
branch (fs::write of toml::to_string(&auth)). -/
def emitToml (cfg : AuthConfig) : String :=
  String.mk (emitDocChars cfg.access_token.data cfg.token_type.data (cfg.scope.map String.data))

/-- Strip an expected literal from the front of the input, failing if the
input does not start with it. -/
def stripLit : List Char → List Char → Option (List Char)
  | [], l => some l
  | _ :: _, [] => none
  | c :: cs, x :: xs => if x = c then stripLit cs xs else none

/-- Fuelled parser for the tail of the TOML scope array: either the closing
bracket, or a comma-space separator followed by a further quoted element. -/
def parseItemsAux (fuel : Nat) (l : List Char) : Option (List (List Char) × List Char) :=
  match l with
  | ']' :: rest => some ([], rest)
  | ',' :: ' ' :: '"' :: rest =>
    match fuel with
    | 0 => none
    | fuel2 + 1 =>
      match parseStr rest with
      | some (s, r) =>
        match parseItemsAux fuel2 r with
        | some (ss, r2) => some (s :: ss, r2)
        | none => none
      | none => none
  | _ => none

/-- Fuelled parser for the body of the TOML scope array, consuming the
closing bracket. -/
def parseItems (fuel : Nat) (l : List Char) : Option (List (List Char) × List Char) :=
  match l with
  | ']' :: rest => some ([], rest)
  | '"' :: rest =>
    match parseStr rest with
    | some (s, r) =>
      match parseItemsAux fuel r with
      | some (ss, r2) => some (s :: ss, r2)
      | none => none
    | none => none
  | _ => none

/-- Deserializer for the credential file, modelling toml::from_str in
AuthConfig::load on the documents the serializer produces (the three fields
in emitted order); any other input is rejected as corrupt. -/
def parseDoc (l : List Char) : Option AuthConfig :=
  match stripLit litAccess l with
  | none => none
  | some l1 =>
    match parseStr l1 with
    | none => none
    | some (tok, l2) =>
      match stripLit litTokenType l2 with
      | none => none
      | some l3 =>
        match parseStr l3 with
        | none => none
        | some (tt, l4) =>
          match stripLit litScope l4 with
          | none => none
          | some l5 =>
            match parseItems l5.length l5 with
            | none => none
            | some (ss, l6) =>
              match stripLit litEnd l6 with
              | none => none
              | some l7 =>
                if l7 = [] then
                  some ⟨String.mk tok, String.mk tt, ss.map String.mk⟩
                else none

theorem stripLit_append : ∀ lit rest : List Char, stripLit lit (lit ++ rest) = some rest := by
  intro lit
  induction lit with
  | nil => intro rest; simp [stripLit]
  | cons c cs ih => intro rest; simp [stripLit, ih]

theorem parseItemsAux_emit : ∀ ss : List (List Char), ∀ fuel rest, ss.length < fuel →
    parseItemsAux fuel (emitScopeTail ss ++ ']' :: rest) = some (ss, rest) := by
  intro ss
  induction ss with
  | nil => intro fuel rest _; simp [emitScopeTail, parseItemsAux]
  | cons s ss ih =>
    intro fuel rest h
    match fuel with
    | 0 => omega
    | fuel2 + 1 =>
      have hs : ss.length < fuel2 := by simp at h; omega
      simp [emitScopeTail, emitItem, parseItemsAux, parseStr_escape, ih ss.length.succ rest,
        List.append_assoc, ih fuel2 rest hs]

theorem parseItems_emit : ∀ ss : List (List Char), ∀ fuel rest, ss.length ≤ fuel →
    parseItems fuel (emitScope ss ++ ']' :: rest) = some (ss, rest) := by
  intro ss fuel rest h
  match ss with
  | [] => simp [emitScope, parseItems]
  | s :: ss2 =>
    have hs : ss2.length < fuel := by simp at h; omega
    simp [emitScope, emitItem, parseItems, parseStr_escape, List.append_assoc,
      parseItemsAux_emit ss2 fuel rest hs]

theorem emitScopeTail_length : ∀ ss : List (List Char), ss.length ≤ (emitScopeTail ss).length := by
  intro ss
  induction ss with
  | nil => simp [emitScopeTail]
  | cons s ss ih => simp [emitScopeTail, emitItem]; omega

theorem emitScope_length : ∀ ss : List (List Char), ss.length ≤ (emitScope ss).length + 1 := by
  intro ss
  match ss with
  | [] => simp [emitScope]
  | s :: ss2 =>
    have := emitScopeTail_length ss2
    simp [emitScope, emitItem]
    omega

theorem parseDoc_emit (tok tt : List Char) (ss : List (List Char)) :
    parseDoc (emitDocChars tok tt ss) = some ⟨String.mk tok, String.mk tt, ss.map String.mk⟩ := by
  have hlast : stripLit litEnd litEnd = some [] := by
    have h := stripLit_append litEnd []
    rwa [List.append_nil] at h
  have hitems : ∀ fuel, ss.length ≤ fuel →
      parseItems fuel (emitScope ss ++ ']' :: litEnd) = some (ss, litEnd) :=
    fun fuel h => parseItems_emit ss fuel litEnd h
  simp only [parseDoc, emitDocChars, stripLit_append, parseStr_escape]
  rw [hitems _ (by have := emitScope_length ss; simp [litEnd]; omega)]
  simp [hlast]

/-- Round trip at the record level: deserializing the serialized credential
returns the original record, all three fields equal and scope order kept. -/
theorem parseDoc_emitToml (cfg : AuthConfig) : parseDoc (emitToml cfg).data = some cfg := by
  show parseDoc (emitDocChars cfg.access_token.data cfg.token_type.data (cfg.scope.map String.data)) = some cfg
  rw [parseDoc_emit]
  have hmap : ∀ l : List String, (l.map String.data).map String.mk = l := by
    intro l
    induction l with
    | nil => simp
    | cons a l ih => simp [ih]
  simp [hmap]

/-- State of the per-user configuration location used by fj: whether the
XDG config directory for the fj prefix exists, and the contents of the
github.toml credential file when present. -/
structure FsState where
  dirExists : Bool
  file : Option String
  deriving DecidableEq

/-- File-system operations on the configuration location. The vocabulary
includes rename and permission-setting operations so that their absence
from the save path is expressible. -/
inductive FsOp where
  | createDirAll
  | writeFile (contents : String)
  | renameInto (contents : String)
  | removeFile
  | setPerms (mode : Nat)
  deriving DecidableEq

/-- Effect of one completed file-system operation. -/
def applyOp (s : FsState) : FsOp → FsState
  | FsOp.createDirAll => { s with dirExists := true }
  | FsOp.writeFile c => { s with file := some c }
  | FsOp.renameInto c => { s with file := some c }
  | FsOp.removeFile => { s with file := none }
  | FsOp.setPerms _ => s

/-- Effect of a completed sequence of file-system operations. -/
def applyOps (s : FsState) (ops : List FsOp) : FsState := ops.foldl applyOp s

/-- File contents observable if the process crashes while the given
operation is in flight: a direct write first truncates and then appends,
so any prefix of the new contents can be left behind; a rename is atomic
and leaves either the old or the new value. -/
def crashPartials (s : FsState) : FsOp → List (Option String)
  | FsOp.writeFile c =>
    s.file :: (List.range (c.length + 1)).map (fun k => some (String.mk (c.data.take k)))
  | FsOp.renameInto c => [s.file, some c]
  | _ => [s.file]

/-- File contents observable if the process crashes at any point during a
sequence of operations, including after the last one completes. -/
def crashOutcomes (s : FsState) : List FsOp → List (Option String)
  | [] => [s.file]
  | op :: ops => crashPartials s op ++ crashOutcomes (applyOp s op) ops

/-- The file-system operations performed by the credential save path in the
Login success branch of main: xdg place_config_file creates the
configuration directory, then fs::write writes the serialized record
directly to the final path (no temporary file, no rename, no permission
setting). -/
def saveOps (cfg : AuthConfig) : List FsOp :=
  [FsOp.createDirAll, FsOp.writeFile (emitToml cfg)]

/-- Whether an operation is a rename. -/
def FsOp.isRenameOp : FsOp → Bool
  | FsOp.renameInto _ => true
  | _ => false

/-- Whether an operation sets file permissions. -/
def FsOp.isSetPerms : FsOp → Bool
  | FsOp.setPerms _ => true
  | _ => false

/-- Credential load failure classification for AuthConfig::load: the config
file may be absent (fs::read_to_string fails with NotFound) or present but
undeserializable (toml::from_str fails). -/
inductive CredError where
  | notFound
  | corrupt
  deriving DecidableEq

/-- AuthConfig::load from src/main.rs: read the credential file at the
per-user config path and deserialize it. -/
def AuthConfig.load (s : FsState) : Except CredError AuthConfig :=
  match s.file with
  | none => Except.error CredError.notFound
  | some txt =>
    match parseDoc txt.data with
    | none => Except.error CredError.corrupt
    | some cfg => Except.ok cfg

/-- Error surfaced when logout finds no credential file to remove. -/
inductive LogoutError where
  | notFound
  deriving DecidableEq

/-- The Logout branch of main: place_config_file first ensures the config
directory exists (creating it if absent), then fs::remove_file deletes the
credential file, failing with NotFound when it does not exist; the failure
propagates out of main as a non-zero exit. -/
def logout (s : FsState) : FsState × Except LogoutError Unit :=
  let s1 : FsState := { s with dirExists := true }
  match s1.file with
  | some _ => ({ s1 with file := none }, Except.ok ())
  | none => (s1, Except.error LogoutError.notFound)

/-- Concrete credential record used in counterexamples and witnesses. -/
def demoCfg : AuthConfig := ⟨"gho_tok", "bearer", ["repo"]⟩

/-- C9: for every credential, performing the save operations of the Login
success branch and then loading yields a credential equal to the original
in all three fields, with scope order preserved. -/
theorem c9_save_load_round_trip (cfg : AuthConfig) (s : FsState) :
    AuthConfig.load (applyOps s (saveOps cfg)) = Except.ok cfg := by
  simp [AuthConfig.load, applyOps, saveOps, applyOp, parseDoc_emitToml]

/-- C10: logout first ensures the per-user configuration directory exists
and only then attempts to remove the credential file; on a system where
neither the directory nor the credential file exists, it creates the empty
configuration directory as a durable side effect and then fails with a
not-found error, which main propagates as a non-zero exit. -/
theorem c10_logout_creates_dir_then_fails :
    (∀ s : FsState, ((logout s).1).dirExists = true) ∧
    logout ⟨false, none⟩ = (⟨true, none⟩, Except.error LogoutError.notFound) := by
  constructor
  · intro s
    cases h : s.file <;> simp [logout, h]
  · rfl

/-- C4 counterexample: saving on a fresh system (no prior file) has a crash
outcome that is a three-character fragment of the serialized credential,
which is neither the old contents (absent) nor the new full record, so a
crash during save can leave a half-written credential file observable by a
later load; the save is not atomic. -/
theorem c4_counterexample :
    some "acc" ∈ crashOutcomes ⟨false, none⟩ (saveOps demoCfg) ∧
    some "acc" ≠ (none : Option String) ∧
    "acc" ≠ emitToml demoCfg := by
  refine ⟨by decide, by decide, by decide⟩

/-- C4 (amended): saving creates the configuration directory when absent
and overwrites any prior stored value, but the write is a direct in-place
write of the final path with no rename step, and a crash during the write
can leave a half-written credential file observable by a later load. -/
theorem c4_save_not_atomic (cfg : AuthConfig) (s : FsState) :
    applyOps s (saveOps cfg) = ⟨true, some (emitToml cfg)⟩ ∧
    (saveOps cfg).all (fun op => ! op.isRenameOp) = true ∧
    ∃ o ∈ crashOutcomes ⟨false, none⟩ (saveOps cfg),
      o ≠ none ∧ o ≠ some (emitToml cfg) := by
  have hdlen : 16 ≤ (emitToml cfg).data.length := by
    have hd : (emitToml cfg).data = litAccess ++ (escape cfg.access_token.data ++ '"' ::
        (litTokenType ++ (escape cfg.token_type.data ++ '"' ::
          (litScope ++ (emitScope (cfg.scope.map String.data) ++ ']' :: litEnd))))) := rfl
    have h16 : litAccess.length = 16 := by decide
    rw [hd]
    simp [h16]
  have hslen : 16 ≤ (emitToml cfg).length := hdlen
  have hlen : 3 < (emitToml cfg).length + 1 := by omega
  refine ⟨by simp [applyOps, saveOps, applyOp], by simp [saveOps, FsOp.isRenameOp], ?_⟩
  refine ⟨some (String.mk ((emitToml cfg).data.take 3)), ?_, by simp, ?_⟩
  · simp only [saveOps, crashOutcomes, crashPartials, applyOp]
    apply List.mem_append_right
    apply List.mem_append_left
    apply List.mem_cons_of_mem
    exact List.mem_map.mpr ⟨3, List.mem_range.mpr hlen, rfl⟩
  · intro hcontra
    have h1 : String.mk ((emitToml cfg).data.take 3) = emitToml cfg := Option.some.inj hcontra
    have h2 := congrArg (fun s : String => s.data.length) h1
    simp [List.length_take] at h2
    omega

/-- Provider responses a single poll of the token endpoint can produce, as
classified by the match in the Login polling loop of main: a successful
OAuth credential, the authorization-pending continue signal, the slow-down
continue signal, or any other error (network failure, expired or denied
grant, malformed response), displayed by its message. -/
inductive PollResponse where
  | success (auth : AuthConfig)
  | authorizationPending
  | slowDown
  | pollError (msg : String)
  deriving DecidableEq

/-- Observable events of the Login polling loop: one poll of the token
endpoint, a sleep of a given number of seconds, the user-facing error and
retry prints of the error branch, the debug log of the config path, the
persistence of a credential, and the success print. -/
inductive LoginEvent where
  | poll
  | sleep (d : Nat)
  | printError (msg : String)
  | printRetry (d : Nat)
  | debugLog (msg : String)
  | save (cfg : AuthConfig)
  | printSuccess
  deriving DecidableEq

/-- Path of the credential file as logged by the Login success branch. -/
def fjConfigPath : String := ".config/fj/github.toml"

/-- RETRY_LIMIT from src/main.rs (const RETRY_LIMIT: usize = 10). -/
def RETRY_LIMIT : Nat := 10

/-- The Login polling loop of main, with the remaining iteration budget, the
scripted provider responses and the current poll_duration (seconds)
threaded explicitly. On success the branch logs the config path, saves the
credential, prints success and breaks; on authorization-pending it sleeps
poll_duration and continues with it unchanged; on slow-down it only
doubles poll_duration (no sleep); on any other error it prints the error,
prints the retry notice, sleeps poll_duration and then doubles it. -/
def loginEvents : Nat → List PollResponse → Nat → List LoginEvent
  | 0, _, _ => []
  | _ + 1, [], _ => []
  | fuel + 1, r :: rs, d =>
    match r with
    | PollResponse.success auth =>
      [LoginEvent.poll, LoginEvent.debugLog fjConfigPath, LoginEvent.save auth,
        LoginEvent.printSuccess]
    | PollResponse.authorizationPending =>
      LoginEvent.poll :: LoginEvent.sleep d :: loginEvents fuel rs d
    | PollResponse.slowDown =>
      LoginEvent.poll :: loginEvents fuel rs (d * 2)
    | PollResponse.pollError m =>
      LoginEvent.poll :: LoginEvent.printError m :: LoginEvent.printRetry d ::
        LoginEvent.sleep d :: loginEvents fuel rs (d * 2)

/-- Event trace of one run of the Login polling loop with scripted provider
responses, starting from the grant's advertised interval. -/
def runLogin (rs : List PollResponse) (interval : Nat) : List LoginEvent :=
  loginEvents RETRY_LIMIT rs interval

/-- Whether an event is a poll of the token endpoint. -/
def isPollEvent : LoginEvent → Bool
  | LoginEvent.poll => true
  | _ => false

/-- Number of polls of the token endpoint in a trace. -/
def pollCount (tr : List LoginEvent) : Nat := tr.countP isPollEvent

/-- Sleep durations of a trace, in order. -/
def sleepDurations (tr : List LoginEvent) : List Nat :=
  tr.filterMap fun e => match e with
    | LoginEvent.sleep d => some d
    | _ => none

/-- Credentials persisted by a trace, in order. -/
def savedConfigs (tr : List LoginEvent) : List AuthConfig :=
  tr.filterMap fun e => match e with
    | LoginEvent.save cfg => some cfg
    | _ => none

/-- Error messages printed to the user by a trace, in order. -/
def errorPrints (tr : List LoginEvent) : List String :=
  tr.filterMap fun e => match e with
    | LoginEvent.printError m => some m
    | _ => none

/-- Number of success messages printed by a trace. -/
def successPrintCount (tr : List LoginEvent) : Nat :=
  tr.countP fun e => match e with
    | LoginEvent.printSuccess => true
    | _ => false

/-- String values passed as arguments to the print and log statements of
the polling loop (the displayed error and the config path; the retry
notice prints only a number). -/
def printedArgs (tr : List LoginEvent) : List String :=
  tr.filterMap fun e => match e with
    | LoginEvent.printError m => some m
    | LoginEvent.debugLog m => some m
    | _ => none

/-- Events of a trace occurring strictly before its n-th poll (1-indexed). -/
def eventsBeforePoll : Nat → List LoginEvent → List LoginEvent
  | _, [] => []
  | n, e :: es =>
    if isPollEvent e then
      if n ≤ 1 then [] else e :: eventsBeforePoll (n - 1) es
    else
      e :: eventsBeforePoll n es

/-- Error messages carried by the scripted responses, in order. -/
def scriptErrMsgs (rs : List PollResponse) : List String :=
  rs.filterMap fun r => match r with
    | PollResponse.pollError m => some m
    | _ => none

/-- Whether a scripted response is the success response. -/
def isSuccessResponse : PollResponse → Bool
  | PollResponse.success _ => true
  | _ => false

/-- The response script of the C1 scenario with the demo credential. -/
def demoScript : List PollResponse :=
  [PollResponse.authorizationPending, PollResponse.slowDown,
    PollResponse.authorizationPending, PollResponse.success demoCfg]

/-- C1 counterexample: with initial interval 7 and scripted responses
pending, slow-down, pending, success, the only sleep performed before the
third poll is the single initial-interval sleep of 7 seconds — not the two
sleeps of durations 7 and 14 the claim asserts. The slow-down iteration
performs no sleep, so the doubled sleep happens only between the third and
fourth polls. -/
theorem c1_counterexample :
    sleepDurations (eventsBeforePoll 3 (runLogin demoScript 7)) = [7] ∧
    sleepDurations (eventsBeforePoll 3 (runLogin demoScript 7)) ≠ [7, 14] := by
  refine ⟨by decide, by decide⟩

/-- C1 (amended): given scripted responses pending, slow-down, pending,
success with initial interval I, the session sleeps I before the second
poll, performs no sleep on the slow-down iteration (which only doubles
poll_duration), sleeps 2I between the third and fourth polls — the full
sleep sequence is I then 2I — and persists a credential exactly once,
after exactly 4 polls. -/
theorem c1_polling_trace (I : Nat) (cfg : AuthConfig) :
    pollCount (runLogin [PollResponse.authorizationPending, PollResponse.slowDown,
      PollResponse.authorizationPending, PollResponse.success cfg] I) = 4 ∧
    savedConfigs (runLogin [PollResponse.authorizationPending, PollResponse.slowDown,
      PollResponse.authorizationPending, PollResponse.success cfg] I) = [cfg] ∧
    sleepDurations (runLogin [PollResponse.authorizationPending, PollResponse.slowDown,
      PollResponse.authorizationPending, PollResponse.success cfg] I) = [I, I * 2] ∧
    sleepDurations (eventsBeforePoll 2 (runLogin [PollResponse.authorizationPending,
      PollResponse.slowDown, PollResponse.authorizationPending,
      PollResponse.success cfg] I)) = [I] ∧
    sleepDurations (eventsBeforePoll 3 (runLogin [PollResponse.authorizationPending,
      PollResponse.slowDown, PollResponse.authorizationPending,
      PollResponse.success cfg] I)) = [I] ∧
    sleepDurations (eventsBeforePoll 4 (runLogin [PollResponse.authorizationPending,
      PollResponse.slowDown, PollResponse.authorizationPending,
      PollResponse.success cfg] I)) = [I, I * 2] :=
  ⟨rfl, rfl, rfl, rfl, rfl, rfl⟩

theorem pollCount_loginEvents_le : ∀ fuel (rs : List PollResponse) d,
    pollCount (loginEvents fuel rs d) ≤ fuel := by
  intro fuel
  induction fuel with
  | zero => intro rs d; simp [loginEvents, pollCount]
  | succ n ih =>
    intro rs d
    match rs with
    | [] => simp [loginEvents, pollCount]
    | r :: rs2 =>
      cases r with
      | success a => simp [loginEvents, pollCount, List.countP_cons, isPollEvent]
      | authorizationPending =>
        have := ih rs2 d
        simp [loginEvents, pollCount, List.countP_cons, isPollEvent] at *
        omega
      | slowDown =>
        have := ih rs2 (d * 2)
        simp [loginEvents, pollCount, List.countP_cons, isPollEvent] at *
        omega
      | pollError m =>
        have := ih rs2 (d * 2)
        simp [loginEvents, pollCount, List.countP_cons, isPollEvent] at *
        omega

theorem loginEvents_no_success : ∀ fuel (rs : List PollResponse) d,
    rs.all (fun r => ! isSuccessResponse r) = true →
    savedConfigs (loginEvents fuel rs d) = [] ∧
    successPrintCount (loginEvents fuel rs d) = 0 := by
  intro fuel
  induction fuel with
  | zero => intro rs d _; simp [loginEvents, savedConfigs, successPrintCount]
  | succ n ih =>
    intro rs d h
    match rs with
    | [] => simp [loginEvents, savedConfigs, successPrintCount]
    | r :: rs2 =>
      simp only [List.all_cons, Bool.and_eq_true] at h
      obtain ⟨h1, h2⟩ := h
      cases r with
      | success a => simp [isSuccessResponse] at h1
      | authorizationPending =>
        have := ih rs2 d h2
        simp [loginEvents, savedConfigs, successPrintCount, List.countP_cons] at *
        exact this
      | slowDown =>
        have := ih rs2 (d * 2) h2
        simp [loginEvents, savedConfigs, successPrintCount, List.countP_cons] at *
        exact this
      | pollError m =>
        have := ih rs2 (d * 2) h2
        simp [loginEvents, savedConfigs, successPrintCount, List.countP_cons] at *
        exact this

/-- Expected trace of a run of consecutive error responses: each iteration
polls, prints the error and the retry notice, sleeps the current interval
and doubles it for the next iteration. Helper for the error-path claims. -/
def allErrorTrace : List String → Nat → List LoginEvent
  | [], _ => []
  | m :: ms, d =>
    LoginEvent.poll :: LoginEvent.printError m :: LoginEvent.printRetry d ::
      LoginEvent.sleep d :: allErrorTrace ms (d * 2)

theorem loginEvents_allError : ∀ (msgs : List String) fuel d, msgs.length ≤ fuel →
    loginEvents fuel (msgs.map PollResponse.pollError) d = allErrorTrace msgs d := by
  intro msgs
  induction msgs with
  | nil => intro fuel d _; cases fuel <;> simp [loginEvents, allErrorTrace]
  | cons m ms ih =>
    intro fuel d h
    match fuel with
    | 0 => simp at h
    | n + 1 =>
      simp only [List.map_cons, loginEvents, allErrorTrace, List.cons.injEq, true_and]
      exact ih n (d * 2) (by simp at h; omega)

theorem allErrorTrace_props : ∀ (msgs : List String) d,
    pollCount (allErrorTrace msgs d) = msgs.length ∧
    savedConfigs (allErrorTrace msgs d) = [] ∧
    errorPrints (allErrorTrace msgs d) = msgs ∧
    sleepDurations (allErrorTrace msgs d) = (List.range msgs.length).map (fun k => d * 2 ^ k) := by
  intro msgs
  induction msgs with
  | nil =>
    intro d
    simp [allErrorTrace, pollCount, savedConfigs, errorPrints, sleepDurations]
  | cons m ms ih =>
    intro d
    obtain ⟨i1, i2, i3, i4⟩ := ih (d * 2)
    refine ⟨?_, ?_, ?_, ?_⟩
    · simp [allErrorTrace, pollCount, List.countP_cons, isPollEvent] at *
      omega
    · simp [allErrorTrace, savedConfigs] at *
      exact i2
    · simp [allErrorTrace, errorPrints] at *
      exact i3
    · simp only [allErrorTrace, sleepDurations, List.filterMap_cons] at *
      rw [i4]
      simp only [List.length_cons]
      rw [List.range_succ_eq_map, List.map_cons, List.map_map]
      simp only [pow_zero, Nat.mul_one]
      congr 1
      apply List.map_congr_left
      intro a _
      simp [Function.comp, pow_succ]
      ring

/-- C2: the Login polling loop polls the token endpoint at most
RETRY_LIMIT = 10 times; when the scripted responses contain no success,
the session ends silently: no credential is saved and no terminal message
is printed beyond the per-iteration output (in particular no success
print), and the loop itself raises no fatal error — the trace simply
ends and main returns normally. -/
theorem c2_retry_limit (rs : List PollResponse) (I : Nat)
    (h : rs.all (fun r => ! isSuccessResponse r) = true) :
    RETRY_LIMIT = 10 ∧
    pollCount (runLogin rs I) ≤ RETRY_LIMIT ∧
    savedConfigs (runLogin rs I) = [] ∧
    successPrintCount (runLogin rs I) = 0 := by
  obtain ⟨h1, h2⟩ := loginEvents_no_success RETRY_LIMIT rs I h
  exact ⟨rfl, pollCount_loginEvents_le RETRY_LIMIT rs I, h1, h2⟩

theorem c2_retry_limit_witness :
    ((List.replicate 10 (PollResponse.pollError "denied")).all
      (fun r => ! isSuccessResponse r) = true) ∧
    (RETRY_LIMIT = 10 ∧
      pollCount (runLogin (List.replicate 10 (PollResponse.pollError "denied")) 3) ≤ RETRY_LIMIT ∧
      savedConfigs (runLogin (List.replicate 10 (PollResponse.pollError "denied")) 3) = [] ∧
      successPrintCount (runLogin (List.replicate 10 (PollResponse.pollError "denied")) 3) = 0) :=
  ⟨by decide, c2_retry_limit _ 3 (by decide)⟩

/-- C3: on any poll response that is neither success, pending nor
slow-down, the loop reports the error to the user, sleeps poll_duration
and doubles it, then continues; for a scripted sequence of 10 consecutive
error responses the session performs exactly 10 polls, prints all 10
errors, sleeps after each poll with doubling backoff (the sleep sequence
is I, 2I, 4I, ... 512I), persists no credential, and the loop raises no
fatal process error. -/
theorem c3_error_backoff (I : Nat) (msgs : List String) (h : msgs.length = 10) :
    pollCount (runLogin (msgs.map PollResponse.pollError) I) = 10 ∧
    savedConfigs (runLogin (msgs.map PollResponse.pollError) I) = [] ∧
    errorPrints (runLogin (msgs.map PollResponse.pollError) I) = msgs ∧
    sleepDurations (runLogin (msgs.map PollResponse.pollError) I) =
      (List.range 10).map (fun k => I * 2 ^ k) := by
  have heq := loginEvents_allError msgs RETRY_LIMIT I (by simp [RETRY_LIMIT, h])
  obtain ⟨p1, p2, p3, p4⟩ := allErrorTrace_props msgs I
  unfold runLogin
  rw [heq]
  exact ⟨by rw [p1, h], p2, p3, by rw [p4, h]⟩

theorem c3_error_backoff_witness :
    ((List.replicate 10 "timeout").length = 10) ∧
    (pollCount (runLogin ((List.replicate 10 "timeout").map PollResponse.pollError) 2) = 10 ∧
      savedConfigs (runLogin ((List.replicate 10 "timeout").map PollResponse.pollError) 2) = [] ∧
      errorPrints (runLogin ((List.replicate 10 "timeout").map PollResponse.pollError) 2) =
        List.replicate 10 "timeout" ∧
      sleepDurations (runLogin ((List.replicate 10 "timeout").map PollResponse.pollError) 2) =
        (List.range 10).map (fun k => 2 * 2 ^ k)) :=
  ⟨by decide, c3_error_backoff 2 (List.replicate 10 "timeout") (by decide)⟩

/-- Predicate following the claim wording of C8: the save path sets
owner-only permissions on the stored credential file, i.e. some
permission-setting operation occurs among the save operations. Compared
against saveOps, which is taken from the source (place_config_file then a
plain fs::write, which keeps the platform default permissions). -/
def savedWithOwnerOnlyPerms (cfg : AuthConfig) : Bool :=
  (saveOps cfg).any (fun op => op.isSetPerms)

theorem printError_mem : ∀ fuel (rs : List PollResponse) d m,
    LoginEvent.printError m ∈ loginEvents fuel rs d → m ∈ scriptErrMsgs rs := by
  intro fuel
  induction fuel with
  | zero => intro rs d m h; simp [loginEvents] at h
  | succ n ih =>
    intro rs d m h
    match rs with
    | [] => simp [loginEvents] at h
    | r :: rs2 =>
      cases r with
      | success a => simp [loginEvents, fjConfigPath] at h
      | authorizationPending =>
        simp only [loginEvents, List.mem_cons] at h
        simp only [scriptErrMsgs, List.filterMap_cons]
        rcases h with h | h | h
        · exact absurd h (by simp)
        · exact absurd h (by simp)
        · exact ih rs2 d m h
      | slowDown =>
        simp only [loginEvents, List.mem_cons] at h
        simp only [scriptErrMsgs, List.filterMap_cons]
        rcases h with h | h
        · exact absurd h (by simp)
        · exact ih rs2 (d * 2) m h
      | pollError m2 =>
        simp only [loginEvents, List.mem_cons] at h
        simp only [scriptErrMsgs, List.filterMap_cons]
        rcases h with h | h | h | h | h
        · exact absurd h (by simp)
        · simp only [LoginEvent.printError.injEq] at h
          simp [h]
        · exact absurd h (by simp)
        · exact absurd h (by simp)
        · exact List.mem_cons_of_mem _ (ih rs2 (d * 2) m h)

theorem debugLog_mem : ∀ fuel (rs : List PollResponse) d m,
    LoginEvent.debugLog m ∈ loginEvents fuel rs d → m = fjConfigPath := by
  intro fuel
  induction fuel with
  | zero => intro rs d m h; simp [loginEvents] at h
  | succ n ih =>
    intro rs d m h
    match rs with
    | [] => simp [loginEvents] at h
    | r :: rs2 =>
      cases r with
      | success a =>
        simp [loginEvents] at h
        exact h
      | authorizationPending =>
        simp only [loginEvents, List.mem_cons] at h
        rcases h with h | h | h
        · exact absurd h (by simp)
        · exact absurd h (by simp)
        · exact ih rs2 d m h
      | slowDown =>
        simp only [loginEvents, List.mem_cons] at h
        rcases h with h | h
        · exact absurd h (by simp)
        · exact ih rs2 (d * 2) m h
      | pollError m2 =>
        simp only [loginEvents, List.mem_cons] at h
        rcases h with h | h | h | h | h
        · exact absurd h (by simp)
        · exact absurd h (by simp)
        · exact absurd h (by simp)
        · exact absurd h (by simp)
        · exact ih rs2 (d * 2) m h

/-- C8 (amended): the token value is never passed to any print or log call
of the polling loop — the only string arguments ever printed or logged
there are the provider error messages and the config path, so a token
distinct from those never appears — but the credential file is written
with the platform default permissions: the save path performs no
permission-setting operation at all, hence no owner-only permission, and
the token is stored as a plain string field rather than an opaque
redacting wrapper. -/
theorem c8_token_handling (cfg : AuthConfig) (rs : List PollResponse) (I : Nat) (token : String)
    (h1 : token ∉ scriptErrMsgs rs) (h2 : token ≠ fjConfigPath) :
    token ∉ printedArgs (runLogin rs I) ∧ savedWithOwnerOnlyPerms cfg = false := by
  constructor
  · intro hx
    rw [printedArgs, List.mem_filterMap] at hx
    obtain ⟨e, he, hfe⟩ := hx
    cases e with
    | printError m =>
      simp only [Option.some.injEq] at hfe
      subst hfe
      exact h1 (printError_mem RETRY_LIMIT rs I m he)
    | debugLog m =>
      simp only [Option.some.injEq] at hfe
      subst hfe
      exact h2 (debugLog_mem RETRY_LIMIT rs I m he)
    | poll => simp at hfe
    | sleep d => simp at hfe
    | printRetry d => simp at hfe
    | save c => simp at hfe
    | printSuccess => simp at hfe
  · simp [savedWithOwnerOnlyPerms, saveOps, FsOp.isSetPerms]

theorem c8_token_handling_witness :
    ("gho_tok" ∉ scriptErrMsgs demoScript) ∧ ("gho_tok" ≠ fjConfigPath) ∧
    ("gho_tok" ∉ printedArgs (runLogin demoScript 5) ∧
      savedWithOwnerOnlyPerms demoCfg = false) :=
  ⟨by decide, by decide,
    c8_token_handling demoCfg demoScript 5 "gho_tok" (by decide) (by decide)⟩

/-- C8 counterexample: the save path of the Login success branch performs
no permission-setting operation, so the credential file is not written
with owner-only permissions even though the platform model allows such an
operation; the owner-only-permissions conjunct of the claim is false (and
accordingly the token is held in a plain string field, not an opaque
wrapper). -/
theorem c8_counterexample : savedWithOwnerOnlyPerms demoCfg = false := by decide

/-- Captured output of a finished git subprocess invocation: exit code,
stdout and stderr (stdout already decoded to a string; the UTF-8 decoding
step is not load-bearing for any claim). -/
structure ProcOutput where
  exitCode : Nat
  stdout : String
  stderr : String
  deriving DecidableEq

/-- Rust str::trim applied to captured stdout: whitespace removed from
both ends. -/
def rustTrim (s : String) : String :=
  String.mk (((s.data.dropWhile Char.isWhitespace).reverse.dropWhile Char.isWhitespace).reverse)

/-- Git::get_ref_as_commit from src/main.rs: run git rev-parse --short on
the ref and return the trimmed stdout. The subprocess result is supplied
by the environment as an Except: spawning can fail, and that failure
propagates; but a finished process is never inspected for its exit status
or stderr — the trimmed stdout is returned as the commit whatever the
exit code. -/
def get_ref_as_commit (res : Except String ProcOutput) : Except String String :=
  match res with
  | Except.error e => Except.error e
  | Except.ok out => Except.ok (rustTrim out.stdout)

/-- Git::get_ref_as_name from src/main.rs: same shape as
get_ref_as_commit, over git rev-parse --abbrev-ref. -/
def get_ref_as_name (res : Except String ProcOutput) : Except String String :=
  match res with
  | Except.error e => Except.error e
  | Except.ok out => Except.ok (rustTrim out.stdout)

/-- GitHub repository coordinates parsed from the origin remote URL. -/
structure GitHubRepository where
  owner : String
  repo : String
  deriving DecidableEq

/-- A check run as consumed from the provider. -/
structure CheckRun where
  name : String
  conclusion : Option String
  html_url : Option String
  deriving DecidableEq

/-- Provider response for the list of check runs of a commit. -/
structure ListCheckRuns where
  total_count : Nat
  check_runs : List CheckRun
  deriving DecidableEq

/-- octocrab errors as classified by get_runs_for_ref: a provider-reported
GitHub error (octocrab::Error::GitHub) or any other failure, each carrying
its display message. -/
inductive OctoError where
  | gitHub (msg : String)
  | transport (msg : String)
  deriving DecidableEq

/-- Whether the error matches octocrab::Error::GitHub. -/
def OctoError.isGitHub : OctoError → Bool
  | OctoError.gitHub _ => true
  | _ => false

/-- Log levels of the tracing calls available to the program. -/
inductive LogLevel where
  | debug
  | info
  | warn
  deriving DecidableEq

/-- One log entry emitted through the tracing macros. -/
structure LogEntry where
  level : LogLevel
  msg : String
  deriving DecidableEq

/-- Whether a log entry is at debug level. -/
def LogEntry.isDebug (l : LogEntry) : Bool :=
  match l.level with
  | LogLevel.debug => true
  | _ => false

/-- Display strings of the credential load failures (io NotFound or toml
deserialization failure) as interpolated into the debug log. -/
def CredError.display : CredError → String
  | CredError.notFound => "No such file or directory (os error 2)"
  | CredError.corrupt => "TOML parse error"

/-- The HTTP client identity used for the check-run request. -/
inductive Client where
  | authenticated (token : String)
  | anonymous
  deriving DecidableEq

/-- Client selection of get_runs_for_ref: on a successful credential load,
build a client carrying the user access token; on any load failure, log
the failure and the fallback at debug level only and use the default
anonymous octocrab instance. -/
def selectClient (r : Except CredError AuthConfig) : Client × List LogEntry :=
  match r with
  | Except.ok auth => (Client.authenticated auth.access_token, [])
  | Except.error e =>
    (Client.anonymous,
      [⟨LogLevel.debug, "failed to load authentication config: " ++ e.display⟩,
        ⟨LogLevel.debug, "falling back to default octocrab instance"⟩])

/-- The guidance printed when the check-run fetch fails with a
GitHub-reported error. -/
def loginHint : String :=
  "Failed to fetch check runs. Is your repository private? If so, you should log into your GitHub account with `fj login`"

/-- Failures get_runs_for_ref can return: a git-side failure or the
propagated octocrab error. -/
inductive FetchError where
  | vcs (msg : String)
  | api (e : OctoError)
  deriving DecidableEq

/-- Display message of a propagated fetch failure as main would print it:
the underlying error only — the login guidance is printed separately by
the map_err closure and never attached to the returned error. -/
def fetchErrorMessage : FetchError → String
  | FetchError.vcs m => m
  | FetchError.api (OctoError.gitHub m) => m
  | FetchError.api (OctoError.transport m) => m

/-- Environment of one get_runs_for_ref call: results of the git
invocations, the state of the configuration location, and the provider's
response as a function of the repository and the client identity. -/
structure FetchEnv where
  revParseRes : Except String ProcOutput
  refNameRes : Except String ProcOutput
  remoteRes : Except String GitHubRepository
  fs : FsState
  api : GitHubRepository → Client → Except OctoError ListCheckRuns

/-- Result of one get_runs_for_ref call: the returned value or error, the
log entries emitted, and the lines printed to the terminal. -/
structure FetchResult where
  result : Except FetchError (ListCheckRuns × String)
  logs : List LogEntry
  prints : List String

/-- get_runs_for_ref from src/main.rs: resolve the ref to a short commit
(propagating the git failure), log the commit at debug level, select the
client from the credential load result, resolve the remote repository
(propagating failure), fetch the check runs — printing the login guidance
when the failure is a GitHub-reported error while propagating the error
unchanged — and finally resolve the symbolic ref name. -/
def get_runs_for_ref (env : FetchEnv) : FetchResult :=
  match get_ref_as_commit env.revParseRes with
  | Except.error m => ⟨Except.error (FetchError.vcs m), [], []⟩
  | Except.ok commit =>
    let logs0 : List LogEntry := [⟨LogLevel.debug, "found git commit: " ++ commit⟩]
    let cl := selectClient (AuthConfig.load env.fs)
    match env.remoteRes with
    | Except.error m => ⟨Except.error (FetchError.vcs m), logs0 ++ cl.2, []⟩
    | Except.ok repo =>
      match env.api repo cl.1 with
      | Except.error e =>
        ⟨Except.error (FetchError.api e), logs0 ++ cl.2,
          if e.isGitHub then [loginHint] else []⟩
      | Except.ok runs =>
        match get_ref_as_name env.refNameRes with
        | Except.error m => ⟨Except.error (FetchError.vcs m), logs0 ++ cl.2, []⟩
        | Except.ok name => ⟨Except.ok (runs, name), logs0 ++ cl.2, []⟩

/-- Whether the needle occurs as a contiguous substring of the hay: the
claim's notion of a message including the guidance text. -/
def occursIn (needle hay : List Char) : Bool :=
  (List.range (hay.length + 1)).any (fun k => needle.isPrefixOf (List.drop k hay))

/-- C6 counterexample: for a ref that does not exist, git rev-parse
--short exits with status 128 while echoing the ref on stdout and putting
the fatal message on stderr; get_ref_as_commit nevertheless returns Ok
with the echoed ref — the operation returns a value, not a VcsError. -/
theorem c6_counterexample :
    get_ref_as_commit (Except.ok ⟨128, "doesnotexist\n", "fatal: ambiguous argument"⟩) =
      Except.ok "doesnotexist" := by
  show Except.ok (rustTrim "doesnotexist\n") = Except.ok "doesnotexist"
  have h : rustTrim "doesnotexist\n" = "doesnotexist" := by
    simp [rustTrim]
  rw [h]

/-- C6 (amended): resolving a ref never fails because the ref does not
exist in the repository: get_ref_as_commit ignores the subprocess exit
status and stderr and returns the trimmed stdout of any finished
invocation; an error is returned only when the invocation itself could
not be performed. -/
theorem c6_resolve_ignores_exit (out : ProcOutput) (m : String) :
    get_ref_as_commit (Except.ok out) = Except.ok (rustTrim out.stdout) ∧
    get_ref_as_commit (Except.error m) = Except.error m :=
  ⟨rfl, rfl⟩

/-- C5: for every credential load failure — file absent (NotFound) or
present but undeserializable (Corrupt) — get_runs_for_ref proceeds with
the anonymous client, the failure is logged at debug level only (every
log entry of the call is a debug entry), and the load failure never
aborts the operation: with the remaining steps succeeding, the call
returns the fetched runs. -/
theorem c5_load_failure_degrades (env : FetchEnv) (e : CredError)
    (hload : AuthConfig.load env.fs = Except.error e)
    (out : ProcOutput) (hrev : env.revParseRes = Except.ok out)
    (repo : GitHubRepository) (hremote : env.remoteRes = Except.ok repo)
    (runs : ListCheckRuns) (happi : env.api repo Client.anonymous = Except.ok runs)
    (out2 : ProcOutput) (hname : env.refNameRes = Except.ok out2) :
    (selectClient (AuthConfig.load env.fs)).1 = Client.anonymous ∧
    (get_runs_for_ref env).result = Except.ok (runs, rustTrim out2.stdout) ∧
    (get_runs_for_ref env).logs.all LogEntry.isDebug = true := by
  simp [get_runs_for_ref, get_ref_as_commit, get_ref_as_name, selectClient,
    hload, hrev, hremote, happi, hname, LogEntry.isDebug]

/-- Concrete check-run response used by witnesses. -/
def demoRuns : ListCheckRuns := ⟨2, [⟨"build", some "success", some "u1"⟩, ⟨"lint", none, none⟩]⟩

/-- Environment of the C5 witness: empty configuration state, all git
invocations succeeding, and a provider that answers the anonymous
client. -/
def env5 : FetchEnv :=
  { revParseRes := Except.ok ⟨0, "abc123f\n", ""⟩
  , refNameRes := Except.ok ⟨0, "main\n", ""⟩
  , remoteRes := Except.ok ⟨"acme", "widget"⟩
  , fs := ⟨false, none⟩
  , api := fun _ _ => Except.ok demoRuns }

theorem c5_load_failure_degrades_witness :
    (AuthConfig.load env5.fs = Except.error CredError.notFound) ∧
    ((selectClient (AuthConfig.load env5.fs)).1 = Client.anonymous ∧
      (get_runs_for_ref env5).result = Except.ok (demoRuns, rustTrim "main\n") ∧
      (get_runs_for_ref env5).logs.all LogEntry.isDebug = true) :=
  ⟨rfl, c5_load_failure_degrades env5 CredError.notFound rfl _ rfl _ rfl _ rfl _ rfl⟩

/-- C7 (amended): when the check-run fetch fails, the original octocrab
error is propagated to the caller unchanged; exactly when the failure is
a provider-reported GitHub error, guidance to run the login operation is
printed to the terminal — the guidance is informational only and is not
attached to the returned error. -/
theorem c7_github_error_hint (env : FetchEnv) (out : ProcOutput)
    (hrev : env.revParseRes = Except.ok out)
    (repo : GitHubRepository) (hremote : env.remoteRes = Except.ok repo)
    (e : OctoError)
    (happi : env.api repo (selectClient (AuthConfig.load env.fs)).1 = Except.error e) :
    (get_runs_for_ref env).result = Except.error (FetchError.api e) ∧
    ((get_runs_for_ref env).prints = if e.isGitHub then [loginHint] else []) := by
  simp [get_runs_for_ref, get_ref_as_commit, hrev, hremote, happi]

/-- Environment of the C7 witness and counterexample: the provider
reports a GitHub error for every request. -/
def env7 : FetchEnv :=
  { revParseRes := Except.ok ⟨0, "abc123f\n", ""⟩
  , refNameRes := Except.ok ⟨0, "main\n", ""⟩
  , remoteRes := Except.ok ⟨"acme", "widget"⟩
  , fs := ⟨false, none⟩
  , api := fun _ _ => Except.error (OctoError.gitHub "Not Found") }

theorem c7_github_error_hint_witness :
    (env7.revParseRes = Except.ok ⟨0, "abc123f\n", ""⟩) ∧
    (env7.remoteRes = Except.ok ⟨"acme", "widget"⟩) ∧
    (env7.api ⟨"acme", "widget"⟩ (selectClient (AuthConfig.load env7.fs)).1 =
      Except.error (OctoError.gitHub "Not Found")) ∧
    ((get_runs_for_ref env7).result =
        Except.error (FetchError.api (OctoError.gitHub "Not Found")) ∧
      ((get_runs_for_ref env7).prints =
        if (OctoError.gitHub "Not Found").isGitHub then [loginHint] else [])) :=
  ⟨rfl, rfl, rfl, c7_github_error_hint env7 _ rfl _ rfl _ rfl⟩

/-- C7 counterexample: on a GitHub-reported 404, the returned error is the
original provider error unchanged and its message is exactly the provider
message — the login guidance does not occur in the returned error's
message; it is only printed to the terminal. -/
theorem c7_counterexample :
    (get_runs_for_ref env7).result =
      Except.error (FetchError.api (OctoError.gitHub "Not Found")) ∧
    (get_runs_for_ref env7).prints = [loginHint] ∧
    occursIn loginHint.data
      (fetchErrorMessage (FetchError.api (OctoError.gitHub "Not Found"))).data = false :=
  ⟨rfl, rfl, by decide⟩
